import Mathlib

/-!
Verification of the duckworth-lewis library: a shallow embedding of the
over/ball arithmetic type (`src/overs.rs`) and of the match / revised-target
engine (`src/game.rs`), with theorems checking the specification's claims.

Modelling conventions:
* Rust `u16` arithmetic is embedded as `Nat` with an explicit `% 65536`
  where the source can overflow (release-build wraparound semantics).
  `Nat` subtraction is truncated, which coincides with `u16::saturating_sub`.
* Rust `f32` resource arithmetic is idealised as exact rational arithmetic
  (`ℚ`); the claims under check concern the shape of the computation, not
  floating-point rounding.
* A Rust function that can `panic!` (assertion failure) is embedded as a
  function into `Option`, with `none` for the panic.
* Rust `String` values are embedded as `List Char` so that all string
  operations reduce inside the kernel.
* The static resource table lives in the repository's `table` module, which
  is not among the provided sources; everything is therefore parameterised
  by the table data `tbl : Nat → Nat → ℚ`, and the lookup
  `resources_remaining` is modelled from the specification.
-/

/-- Embedding of `Overs` (src/overs.rs): a count of overs plus balls.
The `balls < 6` invariant is maintained by the constructors the library
exposes, not by the struct itself, so it is a hypothesis where needed. -/
structure Overs where
  overs : Nat
  balls : Nat
deriving DecidableEq, Repr

/-- Embedding of `Overs::total_balls` (src/overs.rs lines 31-33): computed in
`u16` arithmetic, hence the explicit wraparound modulo `2^16`. -/
def Overs.total_balls (o : Overs) : Nat :=
  (o.overs * 6 + o.balls) % 65536

/-- The mathematical delivery count `overs*6 + balls`, with no machine-width
wraparound; the specification calls this `totalDeliveries()`. -/
def Overs.totalDeliveries (o : Overs) : Nat :=
  o.overs * 6 + o.balls

/-- Embedding of `Overs::new` (src/overs.rs lines 26-28). -/
def Overs.new (overs : Nat) : Overs :=
  ⟨overs, 0⟩

/-- Embedding of the free function `subtract` (src/overs.rs lines 113-124):
`saturating_sub` on `u16` is truncated `Nat` subtraction of the (wrapped)
total ball counts, then divmod 6, with a special case at zero. -/
def subtract (a b : Overs) : Overs :=
  let new_balls := a.total_balls - b.total_balls
  if new_balls = 0 then ⟨0, 0⟩ else ⟨new_balls / 6, new_balls % 6⟩

/-- The strict order `derive(Ord)` produces for `Overs` (src/overs.rs line 16):
lexicographic on the fields, `overs` first then `balls`. -/
def Overs.ltb (a b : Overs) : Bool :=
  decide (a.overs < b.overs) || (decide (a.overs = b.overs) && decide (a.balls < b.balls))

/-- The non-strict order `derive(Ord)` produces for `Overs`: lexicographic on
the fields, `overs` first then `balls`. -/
def Overs.leb (a b : Overs) : Bool :=
  decide (a.overs < b.overs) || (decide (a.overs = b.overs) && decide (a.balls ≤ b.balls))

/-- Embedding of `DuckworthLewisError` (src/lib.rs lines 20-28); the payload
strings are `List Char`. -/
inductive DuckworthLewisError where
  | InvalidOverFormat : List Char → DuckworthLewisError
  | TooManyBalls : Nat → DuckworthLewisError
  | OversNotNumeric : List Char → DuckworthLewisError
deriving DecidableEq, Repr

/-- Embedding of Rust `str::parse::<u16>()`: an optional leading sign `+`,
then one or more ASCII digits, value below `2^16`; anything else is a
`ParseIntError` (here `none`). -/
def parseU16 (s : List Char) : Option Nat :=
  let digits := match s with
    | '+' :: rest => rest
    | _ => s
  if digits = [] then none
  else if digits.all Char.isDigit then
    let n := digits.foldl (fun acc c => acc * 10 + (c.toNat - 48)) 0
    if n < 65536 then some n else none
  else none

/-- Embedding of Rust `str::split('.').collect::<Vec<_>>()`: splits at every
dot, keeping empty components, so the empty string yields `[[]]`. -/
def splitDot : List Char → List (List Char)
  | [] => [[]]
  | c :: rest =>
    let r := splitDot rest
    if c = '.' then [] :: r
    else match r with
      | [] => [[c]]
      | h :: t => (c :: h) :: t

/-- Embedding of `<Overs as FromStr>::from_str` (src/overs.rs lines 58-79):
first try the whole string as a `u16`; otherwise split on dots, demand
exactly two components, parse each as `u16`, and reject ball counts above 5. -/
def from_str (s : List Char) : Except DuckworthLewisError Overs :=
  match parseU16 s with
  | some num => .ok (Overs.new num)
  | none =>
    match splitDot s with
    | [p0, p1] =>
      match parseU16 p0 with
      | none => .error (.OversNotNumeric p0)
      | some overs =>
        match parseU16 p1 with
        | none => .error (.OversNotNumeric p1)
        | some balls =>
          if 5 < balls then .error (.TooManyBalls balls)
          else .ok ⟨overs, balls⟩
    | _ => .error (.InvalidOverFormat s)


/-- Embedding of `Innings` (src/game.rs lines 44-47). -/
inductive Innings where
  | First
  | Second
deriving DecidableEq, Repr

/-- Embedding of `Grade` (src/game.rs lines 30-37). -/
inductive Grade where
  | ICCFullMember
  | FirstClass
  | U19International
  | U15International
  | WomensInternational
  | ICCAssociateMember
deriving DecidableEq, Repr

/-- The constant `G50_FULL` (src/game.rs line 11). -/
def G50_FULL : ℚ := 245

/-- The constant `G50_OTHER` (src/game.rs line 12). -/
def G50_OTHER : ℚ := 200

/-- The boolean equality `derive(PartialEq)` produces for `Innings`
(src/game.rs line 41), used by the filters in `revised_target`. -/
def Innings.beq : Innings → Innings → Bool
  | .First, .First => true
  | .Second, .Second => true
  | _, _ => false

/-- Embedding of `Interruption` (src/game.rs lines 60-65). -/
structure Interruption where
  wickets : Nat
  overs_left : Overs
  overs_lost : Overs
  innings : Innings
deriving DecidableEq, Repr

/-- Embedding of `CricketMatch` (src/game.rs lines 52-56). -/
structure CricketMatch where
  length : Overs
  g_50 : ℚ
  interruptions : List Interruption
deriving DecidableEq

/-- Modelled from the spec: the repository declares `mod table` and uses
`DUCKWORTH_LEWIS_TABLE.resources_remaining`, but the `table` module (the
static Standard Edition matrix and its lookup code) is not among the provided
sources. The lookup is therefore modelled from specification section 4.2,
parameterised by the table data `tbl`: an exact entry at whole overs,
linear interpolation weighted by `balls/6` within an over, and zero at ten
or more wickets. Every theorem below that touches resources is quantified
over `tbl`, so none of them depends on the actual table values. -/
def resources_remaining (tbl : Nat → Nat → ℚ) (o : Overs) (w : Nat) : ℚ :=
  if 10 ≤ w then 0
  else if o.balls = 0 then tbl o.overs w
  else tbl o.overs w + (tbl (o.overs + 1) w - tbl o.overs w) * (o.balls : ℚ) / 6

/-- Embedding of `Interruption::resource_loss` (src/game.rs lines 190-198):
resources remaining at suspension minus resources remaining at resumption,
the resumption overs being the saturating difference `overs_left - overs_lost`,
at the same wicket count. -/
def Interruption.resource_loss (tbl : Nat → Nat → ℚ) (i : Interruption) : ℚ :=
  resources_remaining tbl i.overs_left i.wickets
    - resources_remaining tbl (subtract i.overs_left i.overs_lost) i.wickets

/-- The G50 value `CricketMatch::new` picks for a grade (src/game.rs
lines 79-82). -/
def Grade.g50 : Grade → ℚ
  | .ICCFullMember => G50_FULL
  | .FirstClass => G50_FULL
  | _ => G50_OTHER

/-- Embedding of `CricketMatch::new` (src/game.rs lines 77-89): the
`assert!(length.overs <= 50)` is the `none` case. -/
def CricketMatch.new (length : Overs) (grade : Grade) : Option CricketMatch :=
  if length.overs ≤ 50 then
    some { length := length, g_50 := grade.g50, interruptions := [] }
  else none

/-- Embedding of `CricketMatch::interruption` (src/game.rs lines 116-131):
the two assertions are the `none` case; otherwise the record is pushed onto
the interruption sequence. The `overs_left <= self.length` check uses the
derived lexicographic order on `Overs`. -/
def CricketMatch.interruption (m : CricketMatch) (wickets : Nat)
    (overs_left overs_lost : Overs) (innings : Innings) : Option CricketMatch :=
  if wickets < 10 ∧ Overs.leb overs_left m.length = true then
    some { m with interruptions :=
             m.interruptions ++ [⟨wickets, overs_left, overs_lost, innings⟩] }
  else none

/-- Embedding of `CricketMatch::initial_resources` (src/game.rs
lines 185-187). -/
def CricketMatch.initial_resources (tbl : Nat → Nat → ℚ) (m : CricketMatch) : ℚ :=
  resources_remaining tbl m.length 0

/-- The first fold of `CricketMatch::revised_target` (src/game.rs
lines 153-162): over the First-innings interruptions, in recorded order,
a pair of team 1 resources and the overs available to team 2. -/
def CricketMatch.t1_fold (tbl : Nat → Nat → ℚ) (m : CricketMatch) : ℚ × Overs :=
  (m.interruptions.filter (fun i => Innings.beq i.innings Innings.First)).foldl
    (fun rc i => (rc.1 - i.resource_loss tbl, subtract rc.2 i.overs_lost))
    (m.initial_resources tbl, m.length)

/-- The second fold of `CricketMatch::revised_target` (src/game.rs
lines 164-171): team 2 resources, starting from the table entry for the
overs surviving the first fold at 0 wickets, minus every Second-innings
interruption's resource loss in recorded order. -/
def CricketMatch.t2_resources (tbl : Nat → Nat → ℚ) (m : CricketMatch) : ℚ :=
  (m.interruptions.filter (fun i => Innings.beq i.innings Innings.Second)).foldl
    (fun r i => r - i.resource_loss tbl)
    (resources_remaining tbl (m.t1_fold tbl).2 0)

/-- Embedding of `CricketMatch::revised_target` (src/game.rs lines 148-182):
0 with no interruptions; otherwise the three-way comparison of the two
resource figures and the final `as u32` cast, which truncates toward zero
and clamps negatives at zero, i.e. `Int.toNat` of the floor here. -/
def CricketMatch.revised_target (tbl : Nat → Nat → ℚ) (m : CricketMatch)
    (first_innings_total : Nat) : Nat :=
  if m.interruptions.isEmpty then 0
  else
    let t1_resources := (m.t1_fold tbl).1
    let t2_resources := m.t2_resources tbl
    let target : ℚ :=
      if t2_resources < t1_resources then
        (first_innings_total : ℚ) * (t2_resources / t1_resources) + 1
      else if t1_resources < t2_resources then
        (first_innings_total : ℚ) + (t2_resources - t1_resources) * m.g_50 / 100 + 1
      else (first_innings_total : ℚ)
    (⌊target⌋).toNat

/-- A linear table usable for concrete evaluation in witnesses: `overs`
percent of resources regardless of wickets. -/
def tblEx : Nat → Nat → ℚ := fun o _ => (o : ℚ)

/-- A concrete match for witnesses: 50 overs, G50 245, one First-innings and
one Second-innings interruption. -/
def mEx : CricketMatch :=
  { length := ⟨50, 0⟩
  , g_50 := 245
  , interruptions :=
      [ ⟨3, ⟨30, 0⟩, ⟨10, 0⟩, Innings.First⟩
      , ⟨0, ⟨20, 0⟩, ⟨10, 0⟩, Innings.Second⟩ ] }

/-- The number of decimal points in a string, for stating the parsing
claims. -/
def dotCount (s : List Char) : Nat :=
  s.count '.'

/-- The First-innings interruptions of a match, in recorded order: the list
the first fold of `revised_target` ranges over. -/
def firstsOf (m : CricketMatch) : List Interruption :=
  m.interruptions.filter (fun i => Innings.beq i.innings Innings.First)

/-- The Second-innings interruptions of a match, in recorded order: the list
the second fold of `revised_target` ranges over. -/
def secondsOf (m : CricketMatch) : List Interruption :=
  m.interruptions.filter (fun i => Innings.beq i.innings Innings.Second)

/-- A concrete match with no interruptions, for witnesses. -/
def mBase : CricketMatch :=
  { length := ⟨50, 0⟩, g_50 := 245, interruptions := [] }

/-- A concrete interruption claiming to remove more overs than remain, for
witnesses. -/
def iEx : Interruption :=
  ⟨3, ⟨5, 0⟩, ⟨9, 0⟩, Innings.First⟩

/-- Splitting at a leading dot prepends an empty part. -/
theorem splitDot_cons_dot (rest : List Char) :
    splitDot ('.' :: rest) = [] :: splitDot rest := by
  simp [splitDot]

/-- Splitting at a non-dot character extends the first part. -/
theorem splitDot_cons_ne (c : Char) (rest : List Char) (hc : ¬ c = '.') :
    splitDot (c :: rest)
      = match splitDot rest with
        | [] => [[c]]
        | h :: t => (c :: h) :: t := by
  simp [splitDot, hc]

/-- Splitting a list at every dot produces one more part than there are
dots. -/
theorem splitDot_length (s : List Char) :
    (splitDot s).length = dotCount s + 1 := by
  induction s with
  | nil => rfl
  | cons c rest ih =>
    by_cases hc : c = '.'
    · subst hc
      rw [splitDot_cons_dot]
      simp only [List.length_cons, ih, dotCount, List.count_cons]
      simp
    · rw [splitDot_cons_ne c rest hc]
      rcases hr : splitDot rest with _ | ⟨h, t⟩
      · rw [hr] at ih
        simp at ih
      · rw [hr] at ih
        simp only [List.length_cons] at ih
        simp only [List.length_cons, ih, dotCount, List.count_cons]
        simp [hc]

/-- General form of the subtraction: the zero special case in the source is
redundant, so the result is always the divmod-6 re-expression of the
saturating difference of the (u16) total ball counts. -/
theorem subtract_eq_divmod (a b : Overs) :
    subtract a b
      = ⟨(a.total_balls - b.total_balls) / 6, (a.total_balls - b.total_balls) % 6⟩ := by
  unfold subtract
  by_cases h : a.total_balls - b.total_balls = 0
  · simp [h]
  · simp [h]

/-- C7: with an empty interruption sequence, revised_target returns the
sentinel 0 for every table, match length, G50 value and first-innings total;
no error, no panic. -/
theorem revised_target_empty (tbl : Nat → Nat → ℚ) (len : Overs) (g : ℚ)
    (tot : Nat) :
    CricketMatch.revised_target tbl ⟨len, g, []⟩ tot = 0 := rfl

/-- C3: resource_loss is the table resources remaining at
(overs_left, wickets) minus those at (overs_left - overs_lost, wickets),
with the same wickets on both sides; the over subtraction saturates, so an
interruption claiming to remove at least as many (u16-wrapped) total balls
as remain evaluates resumption resources at zero overs and zero balls. -/
theorem resource_loss_spec (tbl : Nat → Nat → ℚ) (i : Interruption) :
    i.resource_loss tbl
        = resources_remaining tbl i.overs_left i.wickets
            - resources_remaining tbl (subtract i.overs_left i.overs_lost) i.wickets
    ∧ (i.overs_left.total_balls ≤ i.overs_lost.total_balls →
        subtract i.overs_left i.overs_lost = ⟨0, 0⟩) := by
  refine ⟨rfl, fun h => ?_⟩
  simp [subtract, Nat.sub_eq_zero_of_le h]

/-- Witness for resource_loss_spec at a concrete interruption losing more
overs than remain. -/
theorem resource_loss_spec_witness :
    iEx.resource_loss tblEx
        = resources_remaining tblEx iEx.overs_left iEx.wickets
            - resources_remaining tblEx (subtract iEx.overs_left iEx.overs_lost) iEx.wickets
    ∧ subtract iEx.overs_left iEx.overs_lost = ⟨0, 0⟩ :=
  ⟨(resource_loss_spec tblEx iEx).1, (resource_loss_spec tblEx iEx).2 (by decide)⟩

/-- C8: for Overs values satisfying the balls-below-6 invariant, the derived
lexicographic comparison coincides with the numeric order of the
mathematical total delivery counts, both non-strictly and strictly. -/
theorem overs_order_totalDeliveries (a b : Overs) (ha : a.balls < 6) (hb : b.balls < 6) :
    (Overs.leb a b = true ↔ a.totalDeliveries ≤ b.totalDeliveries)
    ∧ (Overs.ltb a b = true ↔ a.totalDeliveries < b.totalDeliveries) := by
  simp only [Overs.leb, Overs.ltb, Overs.totalDeliveries, Bool.or_eq_true,
    Bool.and_eq_true, decide_eq_true_eq]
  omega

/-- Witness for overs_order_totalDeliveries at concrete partial overs. -/
theorem overs_order_totalDeliveries_witness :
    (Overs.leb ⟨3, 2⟩ ⟨3, 4⟩ = true
        ↔ Overs.totalDeliveries ⟨3, 2⟩ ≤ Overs.totalDeliveries ⟨3, 4⟩)
    ∧ (Overs.ltb ⟨3, 2⟩ ⟨3, 4⟩ = true
        ↔ Overs.totalDeliveries ⟨3, 2⟩ < Overs.totalDeliveries ⟨3, 4⟩) :=
  overs_order_totalDeliveries ⟨3, 2⟩ ⟨3, 4⟩ (by decide) (by decide)

/-- C10 (amended): total_balls is exact precisely while the delivery count
fits in a u16, i.e. overs*6 + balls < 65536; in general it is that count
modulo 2^16 (release-build wraparound). The claim's bound overs ≤ 10922 is
slightly too generous: 10922 overs with 4 or 5 balls already overflows. -/
theorem total_balls_u16 (o : Overs) (h : o.overs * 6 + o.balls < 65536) :
    o.total_balls = o.overs * 6 + o.balls
    ∧ o.total_balls = (o.overs * 6 + o.balls) % 65536 :=
  ⟨Nat.mod_eq_of_lt h, rfl⟩

/-- Witness for total_balls_u16 at a full 50-over allocation. -/
theorem total_balls_u16_witness :
    Overs.total_balls ⟨50, 0⟩ = 50 * 6 + 0
    ∧ Overs.total_balls ⟨50, 0⟩ = (50 * 6 + 0) % 65536 :=
  total_balls_u16 ⟨50, 0⟩ (by decide)

/-- Counterexample to C10 as stated: the parseable value 10922.4 has
overs ≤ 10922 yet its delivery count 65536 wraps to 0 rather than being
returned exactly. -/
theorem total_balls_overflow_at_10922 :
    (Overs.mk 10922 4).overs ≤ 10922
    ∧ (Overs.mk 10922 4).balls < 6
    ∧ Overs.total_balls ⟨10922, 4⟩ ≠ 10922 * 6 + 4
    ∧ from_str ['1', '0', '9', '2', '2', '.', '4'] = .ok ⟨10922, 4⟩ :=
  ⟨by decide, by decide, by decide, rfl⟩

/-- C4 (amended): whenever both operands' delivery counts fit in a u16, the
subtraction equals the truncated (saturating-at-zero) difference of total
deliveries re-expressed as overs and balls by divmod 6; the Nat truncated
difference is exactly the max-with-zero of the integer difference. Beyond
the u16 range the first equation fails because total_balls wraps. -/
theorem subtract_divmod_of_bounds (a b : Overs)
    (ha : a.overs * 6 + a.balls < 65536) (hb : b.overs * 6 + b.balls < 65536) :
    subtract a b = ⟨(a.totalDeliveries - b.totalDeliveries) / 6,
                    (a.totalDeliveries - b.totalDeliveries) % 6⟩
    ∧ ((a.totalDeliveries - b.totalDeliveries : ℕ) : ℤ)
        = max 0 ((a.totalDeliveries : ℤ) - (b.totalDeliveries : ℤ)) := by
  constructor
  · rw [subtract_eq_divmod]
    simp only [Overs.total_balls, Overs.totalDeliveries,
      Nat.mod_eq_of_lt ha, Nat.mod_eq_of_lt hb]
  · simp only [Overs.totalDeliveries]
    omega

/-- Witness for subtract_divmod_of_bounds at concrete partial overs. -/
theorem subtract_divmod_of_bounds_witness :
    subtract ⟨25, 2⟩ ⟨5, 4⟩
        = ⟨(Overs.totalDeliveries ⟨25, 2⟩ - Overs.totalDeliveries ⟨5, 4⟩) / 6,
           (Overs.totalDeliveries ⟨25, 2⟩ - Overs.totalDeliveries ⟨5, 4⟩) % 6⟩
    ∧ ((Overs.totalDeliveries ⟨25, 2⟩ - Overs.totalDeliveries ⟨5, 4⟩ : ℕ) : ℤ)
        = max 0 ((Overs.totalDeliveries ⟨25, 2⟩ : ℤ) - (Overs.totalDeliveries ⟨5, 4⟩ : ℤ)) :=
  subtract_divmod_of_bounds ⟨25, 2⟩ ⟨5, 4⟩ (by decide) (by decide)

/-- Counterexample to C4 as stated: for 10923 overs against 0 the u16 total
wraps, so the subtraction does not return the divmod-6 re-expression of the
mathematical delivery difference. -/
theorem subtract_wraps_beyond_u16 :
    subtract ⟨10923, 0⟩ ⟨0, 0⟩
      ≠ ⟨(Overs.totalDeliveries ⟨10923, 0⟩ - Overs.totalDeliveries ⟨0, 0⟩) / 6,
         (Overs.totalDeliveries ⟨10923, 0⟩ - Overs.totalDeliveries ⟨0, 0⟩) % 6⟩ := by
  decide

/-- C9: match construction aborts exactly when length.overs > 50, and
interruption recording aborts exactly when wickets ≥ 10 or overs_left
exceeds the match length (in the derived order); on valid input, recording
appends exactly one record with the given fields and changes nothing else. -/
theorem construction_contracts :
    (∀ (len : Overs) (grade : Grade),
        (¬ len.overs ≤ 50 → CricketMatch.new len grade = none)
        ∧ (len.overs ≤ 50 →
            CricketMatch.new len grade
              = some { length := len, g_50 := grade.g50, interruptions := [] }))
    ∧ (∀ (m : CricketMatch) (w : Nat) (ol olost : Overs) (inn : Innings),
        (¬ (w < 10 ∧ Overs.leb ol m.length = true) →
            m.interruption w ol olost inn = none)
        ∧ ((w < 10 ∧ Overs.leb ol m.length = true) →
            m.interruption w ol olost inn
              = some { m with interruptions :=
                         m.interruptions ++ [⟨w, ol, olost, inn⟩] })) := by
  refine ⟨fun len grade => ⟨fun h => ?_, fun h => ?_⟩,
    fun m w ol olost inn => ⟨fun h => ?_, fun h => ?_⟩⟩
  · simp [CricketMatch.new, h]
  · simp [CricketMatch.new, h]
  · simp [CricketMatch.interruption, h]
  · simp [CricketMatch.interruption, h]

/-- Witness for construction_contracts: a 51-over match is rejected, a
50-over match is built, and a valid interruption is appended as one record. -/
theorem construction_contracts_witness :
    CricketMatch.new ⟨51, 0⟩ Grade.ICCFullMember = none
    ∧ CricketMatch.new ⟨50, 0⟩ Grade.ICCFullMember
        = some { length := ⟨50, 0⟩, g_50 := Grade.ICCFullMember.g50, interruptions := [] }
    ∧ mBase.interruption 3 ⟨30, 0⟩ ⟨10, 0⟩ Innings.First
        = some { mBase with interruptions :=
                   mBase.interruptions ++ [⟨3, ⟨30, 0⟩, ⟨10, 0⟩, Innings.First⟩] } :=
  ⟨(construction_contracts.1 ⟨51, 0⟩ Grade.ICCFullMember).1 (by decide),
   (construction_contracts.1 ⟨50, 0⟩ Grade.ICCFullMember).2 (by decide),
   (construction_contracts.2 mBase 3 ⟨30, 0⟩ ⟨10, 0⟩ Innings.First).2
     ⟨by decide, by decide⟩⟩

/-- A fold that builds a pair componentwise is the pair of the two
component folds. -/
theorem foldl_pair_split {α β γ : Type} (f : α → γ → α) (g : β → γ → β)
    (l : List γ) (a : α) (b : β) :
    l.foldl (fun p c => (f p.1 c, g p.2 c)) (a, b) = (l.foldl f a, l.foldl g b) := by
  induction l generalizing a b with
  | nil => rfl
  | cons c t ih => exact ih (f a c) (g b c)

/-- The paired first-innings fold splits into the resource fold and the
overs fold, each over the First-innings interruptions only. -/
theorem t1_fold_eq (tbl : Nat → Nat → ℚ) (m : CricketMatch) :
    m.t1_fold tbl
      = ((firstsOf m).foldl (fun r i => r - i.resource_loss tbl)
           (resources_remaining tbl m.length 0),
         (firstsOf m).foldl (fun o i => subtract o i.overs_lost) m.length) := by
  show (firstsOf m).foldl
      (fun rc i => (rc.1 - i.resource_loss tbl, subtract rc.2 i.overs_lost))
      (resources_remaining tbl m.length 0, m.length) = _
  exact foldl_pair_split (fun r i => r - i.resource_loss tbl)
    (fun o i => subtract o i.overs_lost) (firstsOf m)
    (resources_remaining tbl m.length 0) m.length

/-- C1: with at least one recorded interruption, team 1's resources are the
full-length table allocation at 0 wickets minus each First-innings
interruption's resource loss folded in recorded order; the overs available
to team 2 are the match length minus only the First-innings interruptions'
overs_lost (saturating subtraction, recorded order) — Second-innings
interruptions never reduce that counter; and team 2's resources start from
the table allocation for that reduced overs count at 0 wickets minus each
Second-innings interruption's resource loss in recorded order, which is
exactly what revised_target consumes. -/
theorem revised_target_fold_structure (tbl : Nat → Nat → ℚ) (m : CricketMatch)
    (tot : Nat) (h : m.interruptions ≠ []) :
    (m.t1_fold tbl).1
        = (firstsOf m).foldl (fun r i => r - i.resource_loss tbl)
            (resources_remaining tbl m.length 0)
    ∧ (m.t1_fold tbl).2
        = (firstsOf m).foldl (fun o i => subtract o i.overs_lost) m.length
    ∧ m.t2_resources tbl
        = (secondsOf m).foldl (fun r i => r - i.resource_loss tbl)
            (resources_remaining tbl
              ((firstsOf m).foldl (fun o i => subtract o i.overs_lost) m.length) 0)
    ∧ m.revised_target tbl tot
        = (let t1R := (firstsOf m).foldl (fun r i => r - i.resource_loss tbl)
             (resources_remaining tbl m.length 0)
           let t2R := (secondsOf m).foldl (fun r i => r - i.resource_loss tbl)
             (resources_remaining tbl
               ((firstsOf m).foldl (fun o i => subtract o i.overs_lost) m.length) 0)
           Int.toNat ⌊if t2R < t1R then (tot : ℚ) * (t2R / t1R) + 1
             else if t1R < t2R then (tot : ℚ) + (t2R - t1R) * m.g_50 / 100 + 1
             else (tot : ℚ)⌋) := by
  have hne : m.interruptions.isEmpty = false := by
    cases hm : m.interruptions with
    | nil => exact absurd hm h
    | cons a t => rfl
  have e1 := t1_fold_eq tbl m
  refine ⟨?_, ?_, ?_, ?_⟩
  · rw [e1]
  · rw [e1]
  · show (secondsOf m).foldl (fun r i => r - i.resource_loss tbl)
        (resources_remaining tbl (m.t1_fold tbl).2 0) = _
    rw [e1]
  · simp only [CricketMatch.revised_target, hne, Bool.false_eq_true, if_false,
      CricketMatch.t2_resources, e1, firstsOf, secondsOf]

/-- Concrete evaluation: team 1 resources of the example match under the
example table. -/
theorem mEx_t1 : (mEx.t1_fold tblEx).1 = 40 := by
  norm_num [CricketMatch.t1_fold, mEx, tblEx, Innings.beq,
    CricketMatch.initial_resources, Interruption.resource_loss,
    resources_remaining, subtract, Overs.total_balls]

/-- Concrete evaluation: overs available to team 2 in the example match. -/
theorem mEx_overs : (mEx.t1_fold tblEx).2 = ⟨40, 0⟩ := by
  norm_num [CricketMatch.t1_fold, mEx, tblEx, Innings.beq,
    CricketMatch.initial_resources, Interruption.resource_loss,
    resources_remaining, subtract, Overs.total_balls]

/-- Concrete evaluation: team 2 resources of the example match under the
example table. -/
theorem mEx_t2 : mEx.t2_resources tblEx = 30 := by
  norm_num [CricketMatch.t2_resources, CricketMatch.t1_fold, mEx, tblEx,
    Innings.beq, CricketMatch.initial_resources, Interruption.resource_loss,
    resources_remaining, subtract, Overs.total_balls]

/-- Witness for revised_target_fold_structure at the example match and
table, with each fold evaluated. -/
theorem revised_target_fold_structure_witness :
    mEx.interruptions ≠ []
    ∧ (mEx.t1_fold tblEx).1
        = (firstsOf mEx).foldl (fun r i => r - i.resource_loss tblEx)
            (resources_remaining tblEx mEx.length 0)
    ∧ (mEx.t1_fold tblEx).2
        = (firstsOf mEx).foldl (fun o i => subtract o i.overs_lost) mEx.length
    ∧ mEx.t2_resources tblEx
        = (secondsOf mEx).foldl (fun r i => r - i.resource_loss tblEx)
            (resources_remaining tblEx
              ((firstsOf mEx).foldl (fun o i => subtract o i.overs_lost) mEx.length) 0)
    ∧ (mEx.t1_fold tblEx).1 = 40 ∧ (mEx.t1_fold tblEx).2 = ⟨40, 0⟩
    ∧ mEx.t2_resources tblEx = 30 :=
  ⟨by decide,
   (revised_target_fold_structure tblEx mEx 180 (by decide)).1,
   (revised_target_fold_structure tblEx mEx 180 (by decide)).2.1,
   (revised_target_fold_structure tblEx mEx 180 (by decide)).2.2.1,
   mEx_t1, mEx_overs, mEx_t2⟩

/-- C2: with at least one recorded interruption, the target is
firstInningsTotal * (t2/t1) + 1 truncated when t2 < t1, is
firstInningsTotal + (t2 - t1) * g50 / 100 + 1 truncated when t2 > t1, and
is exactly firstInningsTotal (no +1 margin) when the two resource figures
are equal; truncation is the floor of these non-negative quantities
(the `as u32` cast), never rounding. -/
theorem revised_target_branches (tbl : Nat → Nat → ℚ) (m : CricketMatch)
    (tot : Nat) (h : m.interruptions ≠ []) :
    (m.t2_resources tbl < (m.t1_fold tbl).1 →
        m.revised_target tbl tot
          = Int.toNat ⌊(tot : ℚ) * (m.t2_resources tbl / (m.t1_fold tbl).1) + 1⌋)
    ∧ ((m.t1_fold tbl).1 < m.t2_resources tbl →
        m.revised_target tbl tot
          = Int.toNat ⌊(tot : ℚ)
              + (m.t2_resources tbl - (m.t1_fold tbl).1) * m.g_50 / 100 + 1⌋)
    ∧ (m.t2_resources tbl = (m.t1_fold tbl).1 →
        m.revised_target tbl tot = tot) := by
  have hne : m.interruptions.isEmpty = false := by
    cases hm : m.interruptions with
    | nil => exact absurd hm h
    | cons a t => rfl
  refine ⟨fun hlt => ?_, fun hgt => ?_, fun heq => ?_⟩
  · simp only [CricketMatch.revised_target, hne, Bool.false_eq_true, if_false,
      if_pos hlt]
  · simp only [CricketMatch.revised_target, hne, Bool.false_eq_true, if_false,
      if_neg (lt_asymm hgt), if_pos hgt]
  · simp only [CricketMatch.revised_target, hne, Bool.false_eq_true, if_false,
      heq, lt_irrefl, if_false, Int.floor_natCast, Int.toNat_natCast]

/-- Witness for revised_target_branches: the example match sits in the
t2 < t1 branch and yields floor(180 * 30/40 + 1) = 136. -/
theorem revised_target_branches_witness :
    mEx.interruptions ≠ []
    ∧ mEx.t2_resources tblEx < (mEx.t1_fold tblEx).1
    ∧ mEx.revised_target tblEx 180
        = Int.toNat ⌊(180 : ℚ) * (mEx.t2_resources tblEx / (mEx.t1_fold tblEx).1) + 1⌋
    ∧ mEx.revised_target tblEx 180 = 136 := by
  have hlt : mEx.t2_resources tblEx < (mEx.t1_fold tblEx).1 := by
    rw [mEx_t1, mEx_t2]; norm_num
  have happ := (revised_target_branches tblEx mEx 180 (by decide)).1 hlt
  refine ⟨by decide, hlt, happ, ?_⟩
  rw [happ, mEx_t1, mEx_t2]
  norm_num
  decide

/-- C5 (amended): parsing fails with InvalidOverFormat exactly when the
string neither parses as a whole u16 integer nor splits on dots into
exactly two components (more than one decimal point, but also zero decimal
points with non-numeric or out-of-range text); it fails with
OversNotNumeric exactly when it is not a whole integer, splits into exactly
two components, and a component fails u16 parsing; it fails with
TooManyBalls exactly when both components parse and the balls component
exceeds 5; and it succeeds with the evident values on a whole-integer form
or a two-component form with balls at most 5. Every outcome is a returned
value, never a panic. -/
theorem from_str_classification (s : List Char) :
    ((∃ t, from_str s = .error (.InvalidOverFormat t))
        ↔ parseU16 s = none ∧ dotCount s ≠ 1)
    ∧ ((∃ t, from_str s = .error (.OversNotNumeric t))
        ↔ parseU16 s = none ∧ ∃ p0 p1, splitDot s = [p0, p1]
            ∧ (parseU16 p0 = none ∨ parseU16 p1 = none))
    ∧ ((∃ b, from_str s = .error (.TooManyBalls b))
        ↔ parseU16 s = none ∧ ∃ p0 p1 o b, splitDot s = [p0, p1]
            ∧ parseU16 p0 = some o ∧ parseU16 p1 = some b ∧ 5 < b)
    ∧ (∀ n, parseU16 s = some n → from_str s = .ok ⟨n, 0⟩)
    ∧ (∀ p0 p1 o b, splitDot s = [p0, p1] → parseU16 s = none
        → parseU16 p0 = some o → parseU16 p1 = some b → b ≤ 5
        → from_str s = .ok ⟨o, b⟩) := by
  have hlen := splitDot_length s
  cases hp : parseU16 s with
  | some n => simp [from_str, hp, Overs.new]
  | none =>
    rcases hsp : splitDot s with _ | ⟨p0, _ | ⟨p1, _ | ⟨p2, rest⟩⟩⟩
    · rw [hsp] at hlen
      simp at hlen
    · have hd : dotCount s ≠ 1 := by rw [hsp] at hlen; simp at hlen; omega
      simp [from_str, hp, hsp, hd]
    · have hd : dotCount s = 1 := by rw [hsp] at hlen; simp at hlen; omega
      cases h0 : parseU16 p0 with
      | none =>
        simp [from_str, hp, hsp, h0, hd]
        refine ⟨⟨p0, p1, ⟨rfl, rfl⟩, Or.inl h0⟩, ?_⟩
        intro q0 q1 o b hq0 hq1 ho hb2
        subst hq0
        rw [h0] at ho
        simp at ho
      | some o =>
        cases h1 : parseU16 p1 with
        | none =>
          simp [from_str, hp, hsp, h0, h1, hd]
          refine ⟨⟨p0, p1, ⟨rfl, rfl⟩, Or.inr h1⟩, ?_⟩
          intro q0 q1 o2 b2 hq0 hq1 ho2 hb2
          subst hq1
          rw [h1] at hb2
          simp at hb2
        | some b =>
          by_cases hb : 5 < b
          · simp [from_str, hp, hsp, h0, h1, hb, hd]
            refine ⟨⟨p0, p1, ⟨rfl, rfl⟩, ⟨o, h0⟩, b, h1, hb⟩, ?_⟩
            intro q0 q1 o2 b2 hq0 hq1 ho2 hb2
            subst hq1
            rw [h1] at hb2
            simp at hb2
            omega
          · simp [from_str, hp, hsp, h0, h1, hb, hd]
            refine ⟨by omega, ?_⟩
            intro q0 q1 o2 b2 hq0 hq1 ho2 hb2 hble
            subst hq0
            subst hq1
            rw [h0] at ho2
            rw [h1] at hb2
            simp at ho2 hb2
            exact ⟨ho2, hb2⟩
    · have hd : dotCount s ≠ 1 := by rw [hsp] at hlen; simp at hlen; omega
      simp [from_str, hp, hsp, hd]

/-- Witness for from_str_classification: the success conjunct applied to
the concrete text 37.3. -/
theorem from_str_classification_witness :
    splitDot ['3', '7', '.', '3'] = [['3', '7'], ['3']]
    ∧ parseU16 ['3', '7', '.', '3'] = none
    ∧ parseU16 ['3', '7'] = some 37
    ∧ parseU16 ['3'] = some 3
    ∧ (3 : Nat) ≤ 5
    ∧ from_str ['3', '7', '.', '3'] = .ok ⟨37, 3⟩ :=
  ⟨rfl, rfl, rfl, rfl, by decide,
   (from_str_classification ['3', '7', '.', '3']).2.2.2.2
     ['3', '7'] ['3'] 37 3 rfl rfl rfl rfl (by decide)⟩

/-- Counterexample to C5 as stated: the text abc contains no decimal point
at all, yet parsing fails with InvalidOverFormat, so InvalidOverFormat does
not occur exactly when more than one decimal point is present. -/
theorem invalid_format_without_dots :
    from_str ['a', 'b', 'c'] = .error (.InvalidOverFormat ['a', 'b', 'c'])
    ∧ ¬ 1 < dotCount ['a', 'b', 'c'] :=
  ⟨rfl, by decide⟩
